import Mathlib

/-!
Verification of the prompt-structure detection and response-normalization
pipeline of the perfect-prompt-mcp repository.

The definitions below are a shallow embedding of the JavaScript/TypeScript
source (`OpenRouterClient` and the server enhancement handlers).  Regular
expressions from the source are translated into explicit character-list
scanners with the same matching semantics (leftmost match, greedy or lazy
quantifiers as in the source pattern, `m`/`i` flags made explicit).
`JSON.parse` acceptance is embedded as a recursive-descent acceptor of the
ECMAScript JSON grammar.  Strings are processed as their underlying
character lists; machine floats never arise (all arithmetic is on Nat/Int).
-/

set_option maxRecDepth 100000

namespace PerfectPrompt

/-! ### Character helpers -/

/-- The `\w` character class of JavaScript regular expressions. -/
def isWordChar (c : Char) : Bool := c.isAlphanum || c = '_'

/-- The `\s` character class of JavaScript regular expressions (also the
set stripped by `String.prototype.trim`). -/
def isJsWs (c : Char) : Bool :=
  c = ' ' || c = '\t' || c = '\n' || c = '\r' || c = '\x0b' || c = '\x0c' ||
  c = '\u00a0' || c = '\u1680' || (0x2000 ≤ c.toNat && c.toNat ≤ 0x200a) ||
  c = '\u2028' || c = '\u2029' || c = '\u202f' || c = '\u205f' ||
  c = '\u3000' || c = '\ufeff'

/-- Embedding of `String.prototype.trim` on a character list. -/
def trimBoth (l : List Char) : List Char :=
  ((l.dropWhile isJsWs).reverse.dropWhile isJsWs).reverse

/-- Case-insensitive prefix test (pattern given in lower case), the
matching step of an `i`-flagged literal regex alternative. -/
def startsWithCI : List Char → List Char → Bool
  | [], _ => true
  | _ :: _, [] => false
  | p :: ps, c :: cs => if c.toLower = p then startsWithCI ps cs else false

/-- Case-sensitive prefix test on character lists. -/
def startsWithChars : List Char → List Char → Bool
  | [], _ => true
  | _ :: _, [] => false
  | p :: ps, c :: cs => if c = p then startsWithChars ps cs else false

/-- Split a string at the leftmost occurrence of `pat`, returning the
prefix before the match and the suffix after it (the scanning step of a
lazy/global regex literal). -/
def splitAtSub (pat : List Char) : List Char → Option (List Char × List Char)
  | [] => if startsWithChars pat [] then some ([], []) else none
  | l@(c :: rest) =>
    if startsWithChars pat l then some ([], l.drop pat.length)
    else
      match splitAtSub pat rest with
      | some (pre, suf) => some (c :: pre, suf)
      | none => none

/-- Lines of a character list for the `m` regex flag: `^`/`$` match
around the ECMAScript line terminators, here `\n` and `\r`. -/
def splitLinesChars : List Char → List (List Char)
  | [] => [[]]
  | c :: rest =>
    let ls := splitLinesChars rest
    if c = '\n' || c = '\r' then [] :: ls
    else
      match ls with
      | [] => [[c]]
      | h :: t => (c :: h) :: t

/-! ### Structure detector (`detectPromptStructure`) -/

/-- Test of `/<\w+>[\s\S]*<\/\w+>/`: somewhere an opening tag `<\w+>`, then
(possibly empty) arbitrary content, then a closing tag `<\/\w+>`. -/
def openTagAt (l : List Char) : Option (List Char) :=
  match l with
  | '<' :: rest =>
    let run := (rest.takeWhile isWordChar).length
    if 0 < run then
      match rest.drop run with
      | '>' :: after => some after
      | _ => none
    else none
  | _ => none

/-- Does a closing tag `<\/\w+>` match at the head of the list? -/
def closeTagAt (l : List Char) : Bool :=
  match l with
  | '<' :: '/' :: rest =>
    let run := (rest.takeWhile isWordChar).length
    if 0 < run then
      match rest.drop run with
      | '>' :: _ => true
      | _ => false
    else false
  | _ => false

/-- Is there a closing tag starting at any position of `l`? -/
def anyCloseFrom : List Char → Bool
  | [] => false
  | l@(_ :: rest) => closeTagAt l || anyCloseFrom rest

/-- Scanner for `/<\w+>[\s\S]*<\/\w+>/.test`. -/
def xmlTestAux : List Char → Bool
  | [] => false
  | l@(_ :: rest) =>
    (match openTagAt l with
     | some after => anyCloseFrom after
     | none => false) || xmlTestAux rest

/-- Embedding of `/<\w+>[\s\S]*<\/\w+>/.test(prompt)`. -/
def xmlTest (s : String) : Bool := xmlTestAux s.data

/-! JSON.parse acceptance (ECMAScript JSON grammar). -/

/-- JSON insignificant whitespace. -/
def skipJsonWs (l : List Char) : List Char :=
  l.dropWhile fun c => c = ' ' || c = '\t' || c = '\n' || c = '\r'

def isHexDigitChar (c : Char) : Bool :=
  c.isDigit || ('a' ≤ c && c ≤ 'f') || ('A' ≤ c && c ≤ 'F')

/-- Accept the remainder of a JSON string literal (opening quote already
consumed); returns the input after the closing quote. -/
def parseStringRest : List Char → Option (List Char)
  | [] => none
  | '"' :: rest => some rest
  | '\\' :: 'u' :: h1 :: h2 :: h3 :: h4 :: rest =>
    if isHexDigitChar h1 && isHexDigitChar h2 && isHexDigitChar h3 && isHexDigitChar h4 then
      parseStringRest rest
    else none
  | '\\' :: e :: rest =>
    if e = '"' || e = '\\' || e = '/' || e = 'b' || e = 'f' || e = 'n' || e = 'r' || e = 't' then
      parseStringRest rest
    else none
  | c :: rest => if c.toNat < 0x20 then none else parseStringRest rest

/-- One-or-more digits, consuming the maximal run. -/
def parseDigits1 : List Char → Option (List Char)
  | c :: rest => if c.isDigit then some (rest.dropWhile Char.isDigit) else none
  | [] => none

/-- JSON integer part `0 | [1-9][0-9]*`. -/
def parseIntPart : List Char → Option (List Char)
  | '0' :: rest => some rest
  | c :: rest => if c.isDigit then some (rest.dropWhile Char.isDigit) else none
  | [] => none

/-- Optional JSON fraction part `(\.[0-9]+)?`. -/
def parseFracPart : List Char → Option (List Char)
  | '.' :: rest => parseDigits1 rest
  | l => some l

/-- Optional JSON exponent part `([eE][+-]?[0-9]+)?`. -/
def parseExpPart : List Char → Option (List Char)
  | c :: rest =>
    if c = 'e' || c = 'E' then
      match rest with
      | s :: rest2 => if s = '+' || s = '-' then parseDigits1 rest2 else parseDigits1 rest
      | [] => none
    else some (c :: rest)
  | [] => some []

/-- JSON number after an optional leading minus sign. -/
def parseNumberAfterSign (l : List Char) : Option (List Char) :=
  (parseIntPart l).bind fun l1 => (parseFracPart l1).bind parseExpPart

/-- Accept a literal keyword continuation such as `rue` of `true`. -/
def expectLit (pat : List Char) (l : List Char) : Option (List Char) :=
  if startsWithChars pat l then some (l.drop pat.length) else none

/-- Parsing modes of the JSON acceptor: a single value, the member list of
an object (at least one `"key": value`, ending at the closing brace), or
the element list of an array (at least one value, ending at `]`). -/
inductive JsonMode where
  | value
  | members
  | elems

/-- The opening brace character. -/
def lbraceChar : Char := Char.ofNat 123

/-- The closing brace character. -/
def rbraceChar : Char := Char.ofNat 125

/-- Recursive-descent acceptor for the JSON grammar, structurally
recursive on `fuel`, which is always supplied larger than the input
length needs. -/
def parseJsonRun : Nat → JsonMode → List Char → Option (List Char)
  | 0, _, _ => none
  | f + 1, JsonMode.value, l =>
    match skipJsonWs l with
    | [] => none
    | c :: rest =>
      if c = lbraceChar then
        match skipJsonWs rest with
        | d :: r =>
          if d = rbraceChar then some r else parseJsonRun f JsonMode.members rest
        | [] => parseJsonRun f JsonMode.members rest
      else if c = '[' then
        match skipJsonWs rest with
        | ']' :: r => some r
        | _ => parseJsonRun f JsonMode.elems rest
      else if c = '"' then parseStringRest rest
      else if c = '-' then parseNumberAfterSign rest
      else if c.isDigit then parseNumberAfterSign (c :: rest)
      else if c = 't' then expectLit ['r', 'u', 'e'] rest
      else if c = 'f' then expectLit ['a', 'l', 's', 'e'] rest
      else if c = 'n' then expectLit ['u', 'l', 'l'] rest
      else none
  | f + 1, JsonMode.members, l =>
    match skipJsonWs l with
    | '"' :: rest =>
      match parseStringRest rest with
      | some afterKey =>
        match skipJsonWs afterKey with
        | ':' :: afterColon =>
          match parseJsonRun f JsonMode.value afterColon with
          | some afterVal =>
            match skipJsonWs afterVal with
            | d :: more =>
              if d = ',' then parseJsonRun f JsonMode.members more
              else if d = rbraceChar then some more
              else none
            | [] => none
          | none => none
        | _ => none
      | none => none
    | _ => none
  | f + 1, JsonMode.elems, l =>
    match parseJsonRun f JsonMode.value l with
    | some afterVal =>
      match skipJsonWs afterVal with
      | ',' :: more => parseJsonRun f JsonMode.elems more
      | ']' :: more => some more
      | _ => none
    | none => none

/-- Accept one JSON value. -/
def parseJsonValue (fuel : Nat) (l : List Char) : Option (List Char) :=
  parseJsonRun fuel JsonMode.value l

/-- Embedding of a successful `JSON.parse(prompt)`: a full-document parse of the JSON
grammar (a thrown parse error corresponds to `false`). -/
def jsonTest (s : String) : Bool :=
  match parseJsonValue (s.data.length + 1) s.data with
  | some rem => (skipJsonWs rem).isEmpty
  | none => false

/-- One line matching `#+ .+` in full (for `/^#+ .+$/m`). -/
def isHeadingLine (l : List Char) : Bool :=
  let hs := (l.takeWhile fun c => c = '#').length
  if 0 < hs then
    match l.drop hs with
    | ' ' :: _ :: _ => true
    | _ => false
  else false

/-- One line matching `[-*] .+` in full (for `/^[-*] .+$/m`). -/
def isBulletLine : List Char → Bool
  | c :: ' ' :: _ :: _ => c = '-' || c = '*'
  | _ => false

/-- Embedding of `/^#+ .+$/m.test(prompt) || /^[-*] .+$/m.test(prompt)`. -/
def markdownTest (s : String) : Bool :=
  (splitLinesChars s.data).any fun line => isHeadingLine line || isBulletLine line

/-- The four role markers of `/^(You are|System:|User:|Assistant:)/im`,
lower-cased for the `i` flag. -/
def roleMarkers : List (List Char) :=
  ["you are".data, "system:".data, "user:".data, "assistant:".data]

/-- Embedding of `/^(You are|System:|User:|Assistant:)/im.test(prompt)`: the `m` flag
makes `^` match at the start of every line. -/
def roleTest (s : String) : Bool :=
  (splitLinesChars s.data).any fun line => roleMarkers.any fun m => startsWithCI m line

/-- The five structure kinds. -/
inductive StructureType where
  | xml
  | json
  | markdown
  | roleBased
  | plain
deriving DecidableEq, Repr

/-- Result record of `detectPromptStructure`. -/
structure StructureClassification where
  type : StructureType
  preserveFormat : Bool
deriving DecidableEq, Repr

/-- Embedding of `detectPromptStructure(prompt)`, translated test-for-test in source
order: XML, then JSON, then Markdown, then role-based, else plain. -/
def detectPromptStructure (prompt : String) : StructureClassification :=
  if xmlTest prompt then ⟨StructureType.xml, true⟩
  else if jsonTest prompt then ⟨StructureType.json, true⟩
  else if markdownTest prompt then ⟨StructureType.markdown, true⟩
  else if roleTest prompt then ⟨StructureType.roleBased, true⟩
  else ⟨StructureType.plain, false⟩

/-! ### Thinking-segment removal (`processThinkingModelResponse`) -/

/-- Opening marker of `/<thinking>[\s\S]*?<\/thinking>/g`. -/
def thinkOpen : List Char := "<thinking>".data

/-- Closing marker of `/<thinking>[\s\S]*?<\/thinking>/g`. -/
def thinkClose : List Char := "</thinking>".data

/-- Embedding of `thinkingPattern.test(content)`: the regex matches somewhere, i.e. the
first opening marker is followed by a closing marker. -/
def hasThinking (l : List Char) : Bool :=
  match splitAtSub thinkOpen l with
  | some (_, afterOpen) => (splitAtSub thinkClose afterOpen).isSome
  | none => false

/-- Embedding of `content.replace(/<thinking>[\s\S]*?<\/thinking>/g, '')`: repeatedly
delete the leftmost opening marker together with everything up to the
nearest following closing marker, resuming after the deleted segment
(no rescan of already-emitted text).  `fuel` is supplied larger than the
input length. -/
def removeThinkingAux : Nat → List Char → List Char
  | 0, l => l
  | f + 1, l =>
    match splitAtSub thinkOpen l with
    | none => l
    | some (pre, afterOpen) =>
      match splitAtSub thinkClose afterOpen with
      | none => l
      | some (_, afterClose) => pre ++ removeThinkingAux f afterClose

/-- The newline-run collapse `processed.replace(..., '\n\n')` of the
source (pattern: `\n` repeated 3 or more times, global): every maximal
run of three or more newlines becomes exactly two. -/
def collapseNlAux : Nat → List Char → List Char
  | 0, l => l
  | _ + 1, [] => []
  | f + 1, c :: rest =>
    if c = '\n' then
      let k := 1 + (rest.takeWhile fun d => d = '\n').length
      List.replicate (min k 2) '\n' ++ collapseNlAux f (rest.dropWhile fun d => d = '\n')
    else c :: collapseNlAux f rest

/-- Embedding of `processThinkingModelResponse(content)`: if the thinking regex
matches, remove all matches, trim, and collapse newline runs; otherwise
return the content unchanged. -/
def processThinkingModelResponse (content : String) : String :=
  if hasThinking content.data then
    let processed := removeThinkingAux (content.data.length + 1) content.data
    let trimmed := trimBoth processed
    String.mk (collapseNlAux (trimmed.length + 1) trimmed)
  else content

/-- No three consecutive newline characters anywhere. -/
def noTripleNl : List Char → Bool
  | [] => true
  | [_] => true
  | [_, _] => true
  | a :: b :: c :: rest =>
    !(a = '\n' && b = '\n' && c = '\n') && noTripleNl (b :: c :: rest)

/-! ### Response scrubbing (`cleanResponse`) -/

/-- Consume a case-insensitive literal (pattern lower-cased). -/
def eatCIChars (pat : List Char) (l : List Char) : Option (List Char) :=
  if startsWithCI pat l then some (l.drop pat.length) else none

/-- Consume a case-insensitive literal given as a string. -/
def eatCI (pat : String) (l : List Char) : Option (List Char) :=
  eatCIChars pat.data l

/-- Consume `\s+` (at least one whitespace, then the maximal run). -/
def eatWs1 : List Char → Option (List Char)
  | [] => none
  | c :: rest => if isJsWs c then some (rest.dropWhile isJsWs) else none

/-- Consume `\s*`. -/
def eatWs0 (l : List Char) : List Char := l.dropWhile isJsWs

/-- Consume an optional single character (`c?`). -/
def eatOpt (c : Char) : List Char → List Char
  | [] => []
  | d :: rest => if d = c then rest else d :: rest

/-- The backtick character. -/
def btChar : Char := Char.ofNat 96

/-- Consume a sequence of case-insensitive literal words separated by
`\s+`, as in the scrub patterns of `cleanResponse`. -/
def eatPhraseCI : List String → List Char → Option (List Char)
  | [], l => some l
  | [w], l => eatCI w l
  | w :: w2 :: ws, l =>
    match eatCI w l with
    | some l2 =>
      match eatWs1 l2 with
      | some l3 => eatPhraseCI (w2 :: ws) l3
      | none => none
    | none => none

/-- Matcher for the first unwanted-prefix pattern
(`Here`, `\s+`, `is`, `\s+`, `an?`, `\s+`, `enhanced`, `\s+`, `prompt`,
`:?`, `\s*`, anchored at the start, case-insensitive): returns the
remainder after the matched prefix. -/
def scrubPre1 (l : List Char) : Option (List Char) := do
  let l ← eatPhraseCI ["here", "is", "a"] l
  let l := eatOpt 'n' l
  let l ← eatWs1 l
  let l ← eatPhraseCI ["enhanced", "prompt"] l
  pure (eatWs0 (eatOpt ':' l))

/-- Matcher for the anchored case-insensitive prefix pattern
`Here is the enhanced prompt` (words separated by `\s+`), then `:?\s*`. -/
def scrubPre2 (l : List Char) : Option (List Char) := do
  let l ← eatPhraseCI ["here", "is", "the", "enhanced", "prompt"] l
  pure (eatWs0 (eatOpt ':' l))

/-- Matcher for the anchored case-insensitive prefix pattern
`Here's the enhanced prompt`, then `:?\s*`. -/
def scrubPre3 (l : List Char) : Option (List Char) := do
  let l ← eatPhraseCI ["here's", "the", "enhanced", "prompt"] l
  pure (eatWs0 (eatOpt ':' l))

/-- Matcher for the anchored case-insensitive prefix pattern
`Enhanced version`, then `:?\s*`. -/
def scrubPre4 (l : List Char) : Option (List Char) := do
  let l ← eatPhraseCI ["enhanced", "version"] l
  pure (eatWs0 (eatOpt ':' l))

/-- Matcher for the anchored case-insensitive prefix pattern
`Enhanced prompt`, then `:?\s*`. -/
def scrubPre5 (l : List Char) : Option (List Char) := do
  let l ← eatPhraseCI ["enhanced", "prompt"] l
  pure (eatWs0 (eatOpt ':' l))

/-- Matcher for the anchored case-insensitive prefix pattern
`Improved prompt`, then `:?\s*`. -/
def scrubPre6 (l : List Char) : Option (List Char) := do
  let l ← eatPhraseCI ["improved", "prompt"] l
  pure (eatWs0 (eatOpt ':' l))

/-- Matcher for the fenced-code-block opener prefix pattern (three
backticks, then `[\w]*`, then `\s*`; case-sensitive). -/
def scrubPre7 (l : List Char) : Option (List Char) := do
  let l ← eatCIChars [btChar, btChar, btChar] l
  pure (eatWs0 (l.dropWhile isWordChar))

/-- Matcher for the anchored case-insensitive prefix pattern
`**Enhanced Prompt:?**` (a `\s+` between the two words), then `\s*`. -/
def scrubPre8 (l : List Char) : Option (List Char) := do
  let l ← eatCI "**" l
  let l ← eatPhraseCI ["enhanced", "prompt"] l
  let l := eatOpt ':' l
  let l ← eatCI "**" l
  pure (eatWs0 l)

/-- Embedding of `cleaned.replace(pattern, '')` for an anchored prefix pattern: remove
the match if there is one, otherwise leave unchanged. -/
def applyPre (m : List Char → Option (List Char)) (l : List Char) : List Char :=
  (m l).getD l

/-- One pass over the eight prefix patterns, in source order. -/
def applyPres (l : List Char) : List Char :=
  applyPre scrubPre8 (applyPre scrubPre7 (applyPre scrubPre6 (applyPre scrubPre5
    (applyPre scrubPre4 (applyPre scrubPre3 (applyPre scrubPre2 (applyPre scrubPre1 l)))))))

/-- Consume a case-insensitive literal on a reversed list. -/
def eatCIRev (pat : String) (r : List Char) : Option (List Char) :=
  eatCIChars pat.data.reverse r

/-- Suffix matcher for the closing fenced-code-block pattern (`\s*`, three
backticks, `\s*`, end of string): removes the matched suffix. -/
def scrubSuf1 (l : List Char) : Option (List Char) := do
  let r := eatWs0 l.reverse
  let r ← eatCIChars [btChar, btChar, btChar] r
  pure (eatWs0 r).reverse

/-- Consume, on a reversed list, a phrase whose words are given in
reverse order, separated by `\s+`. -/
def eatPhraseRev : List String → List Char → Option (List Char)
  | [], r => some r
  | [w], r => eatCIRev w r
  | w :: w2 :: ws, r =>
    match eatCIRev w r with
    | some r2 =>
      match eatWs1 r2 with
      | some r3 => eatPhraseRev (w2 :: ws) r3
      | none => none
    | none => none

/-- Suffix matcher for the end-anchored case-insensitive pattern
`\s*`, `This enhanced prompt is more specific and detailed` (words
separated by `\s+`), `\.?`, `\s*`, end of string. -/
def scrubSuf2 (l : List Char) : Option (List Char) := do
  let r := eatOpt '.' (eatWs0 l.reverse)
  let r ← eatPhraseRev ["detailed", "and", "specific", "more", "is", "prompt", "enhanced", "this"] r
  pure (eatWs0 r).reverse

/-- Suffix matcher for the end-anchored case-insensitive pattern
`\s*`, `Hope this helps`, `!?`, `\s*`, end of string. -/
def scrubSuf3 (l : List Char) : Option (List Char) := do
  let r := eatOpt '!' (eatWs0 l.reverse)
  let r ← eatPhraseRev ["helps", "this", "hope"] r
  pure (eatWs0 r).reverse

/-- Embedding of `cleaned.replace(pattern, '')` for an end-anchored suffix pattern. -/
def applySuf (m : List Char → Option (List Char)) (l : List Char) : List Char :=
  (m l).getD l

/-- The scrubbing body of `cleanResponse` before the empty-result
fallback: trim, three rounds of (all prefix patterns, trim), one round of
the three suffix patterns, final trim. -/
def scrubCore (content : List Char) : List Char :=
  let c0 := trimBoth content
  let c1 := trimBoth (applyPres c0)
  let c2 := trimBoth (applyPres c1)
  let c3 := trimBoth (applyPres c2)
  let c4 := applySuf scrubSuf3 (applySuf scrubSuf2 (applySuf scrubSuf1 c3))
  trimBoth c4

/-- Embedding of `cleanResponse(content)`: `return cleaned.trim() || content` — the
scrubbed text, or the pre-scrub text when scrubbing left nothing. -/
def cleanResponse (content : String) : String :=
  let r := scrubCore content.data
  if r.isEmpty then content else String.mk r

/-- The response normalization applied to the model output in
`enhancePrompt`: thinking-segment removal, then scrubbing. -/
def normalizeResponse (content : String) : String :=
  cleanResponse (processThinkingModelResponse content)

example :
    normalizeResponse
      "<thinking>reasoning...</thinking>\n\nHere is the enhanced prompt: Actually do X" =
      "Actually do X" := by decide
example : normalizeResponse "Here's the enhanced prompt: Do X" = "Do X" := by decide
example : normalizeResponse "<thinking>x</thinking>" = "" := by decide
example :
    processThinkingModelResponse "<think<thinking>A</thinking>ing>B</thinking>" =
      "<thinking>B</thinking>" := by decide

example : (detectPromptStructure "<a>hi</a>").type = StructureType.xml := by decide
example : (detectPromptStructure "\x7b\"a\": \"# h\"\x7d").type = StructureType.json := by decide
example : (detectPromptStructure "# title").type = StructureType.markdown := by decide
example : (detectPromptStructure "You are a bot").type = StructureType.roleBased := by decide
example : (detectPromptStructure "hello\nUser: hi").type = StructureType.roleBased := by decide
example : (detectPromptStructure "hello there").type = StructureType.plain := by decide
example : jsonTest "[1, -2.5e3, true, null, \"x\\u0041\"]" = true := by decide
example : jsonTest "\x7b\"a\": 1," = false := by decide

/-! ### Input sanitizer (`sanitizeInput`) -/

/-- Skip everything up to and including the first `>`; `none` when the
list contains no `>`. -/
def dropThroughGt : List Char → Option (List Char)
  | [] => none
  | c :: rest => if c = '>' then some rest else dropThroughGt rest

/-- Leading lower-cased characters of an opening script tag. -/
def scriptOpenPat : List Char := "<script".data

/-- Lower-cased closing script tag. -/
def scriptClosePat : List Char := "</script>".data

/-- Skip everything up to and past the first case-insensitive occurrence
of `pat`; `none` when there is no occurrence. -/
def dropThroughSubCI (pat : List Char) : List Char → Option (List Char)
  | [] => if startsWithCI pat [] then some [] else none
  | l@(_ :: rest) =>
    if startsWithCI pat l then some (l.drop pat.length)
    else dropThroughSubCI pat rest

/-- Try to match `/<script[^>]*>[\s\S]*?<\/script>/i` at the head of the
list; on success return the remainder after the match. -/
def tryScriptMatch (l : List Char) : Option (List Char) :=
  if startsWithCI scriptOpenPat l then
    match dropThroughGt (l.drop 7) with
    | some afterGt => dropThroughSubCI scriptClosePat afterGt
    | none => none
  else none

/-- Embedding of `input.replace(/<script[^>]*>[\s\S]*?<\/script>/gi, '')`: global
left-to-right removal, resuming after each match. -/
def removeScriptsAux : Nat → List Char → List Char
  | 0, l => l
  | _ + 1, [] => []
  | f + 1, l@(c :: rest) =>
    match tryScriptMatch l with
    | some rem => removeScriptsAux f rem
    | none => c :: removeScriptsAux f rest

/-- Embedding of `input.replace(/<[^>]*>/g, '')`: at every `<`, delete through the
first following `>`; a `<` with no later `>` is kept along with the rest. -/
def stripTagsAux : Nat → List Char → List Char
  | 0, l => l
  | _ + 1, [] => []
  | f + 1, c :: rest =>
    if c = '<' then
      match dropThroughGt rest with
      | some after => stripTagsAux f after
      | none => c :: rest
    else c :: stripTagsAux f rest

/-- Embedding of `sanitizeInput(input)`: script-tag removal for XML-shaped input, bare
angle-bracket-token stripping otherwise. -/
def sanitizeInput (input : String) : String :=
  if (detectPromptStructure input).type = StructureType.xml then
    String.mk (removeScriptsAux (input.data.length + 1) input.data)
  else
    String.mk (stripTagsAux (input.data.length + 1) input.data)

/-- Does the list contain a `>`? -/
def hasGtChar : List Char → Bool
  | [] => false
  | c :: rest => (c = '>') || hasGtChar rest

/-- Is there a `<` followed (anywhere later) by a `>` — i.e. does
`/<[^>]*>/` match? -/
def hasTagToken : List Char → Bool
  | [] => false
  | c :: rest => (c = '<' && hasGtChar rest) || hasTagToken rest

/-- Does `/<script[^>]*>[\s\S]*?<\/script>/i` match anywhere? -/
def hasScriptSegment : List Char → Bool
  | [] => false
  | l@(_ :: rest) => (tryScriptMatch l).isSome || hasScriptSegment rest

/-- Case-insensitive substring occurrence test. -/
def containsSubCI (pat : List Char) : List Char → Bool
  | [] => startsWithCI pat []
  | l@(_ :: rest) => startsWithCI pat l || containsSubCI pat rest

example : sanitizeInput "a <b> c" = "a  c" := by decide
example : sanitizeInput "<a>x<script>bad</script>y</a>" = "<a>xy</a>" := by decide
example :
    sanitizeInput "<scr<script>a</script>ipt>b</script>" = "<script>b</script>" := by decide

/-! ### Output-token budget (`calculateMaxTokens`) -/

/-- Embedding of `calculateMaxTokens(prompt)`: `ceil(length / 4)` estimated input
tokens, tripled, clamped to `[500, 4000]`
(`Math.min(Math.max(500, estimated), 4000)`). -/
def calculateMaxTokens (prompt : String) : Nat :=
  let promptTokens := (prompt.length + 3) / 4
  let estimatedOutputTokens := promptTokens * 3
  min (max 500 estimatedOutputTokens) 4000

example : calculateMaxTokens "abcd" = 500 := by decide

/-! ### Context construction (server `enhancePrompt` handlers) -/

/-- One conversation turn of the request: a role and a content text. -/
structure ChatMessage where
  role : String
  content : String
deriving DecidableEq, Repr

/-- Rendering of one turn: the role, a colon and a space, the content. -/
def renderTurn (m : ChatMessage) : String := m.role ++ ": " ++ m.content

/-- The context-building block shared by the server handlers:
`context || ''`; when a non-empty message list is supplied, keep
`messages.slice(-6)`, render each turn, join with a blank line, and
prepend a `Recent conversation` label; a non-empty free-text context is
appended after an `Additional context` label. -/
def buildFullContext (context : Option String) (messages : Option (List ChatMessage)) : String :=
  let fullContext := context.getD ""
  match messages with
  | some msgs =>
    if 0 < msgs.length then
      let conversationContext :=
        String.intercalate "\n\n" ((msgs.drop (msgs.length - 6)).map renderTurn)
      "Recent conversation:\n" ++ conversationContext ++
        (if fullContext = "" then "" else "\n\n" ++ ("Additional context: " ++ fullContext))
    else fullContext
  | none => fullContext

example :
    buildFullContext (some "ctx") (some [⟨"user", "a"⟩, ⟨"assistant", "b"⟩]) =
      "Recent conversation:\nuser: a\n\nassistant: b\n\nAdditional context: ctx" := by decide

/-! ### Rate-limit handling (`enhancePrompt` request phase) -/

/-- The fields of a fetch `Response` that `enhancePrompt` reads. -/
structure HttpResponse where
  status : Nat
  statusText : String
  retryAfter : Option String
  ok : Bool
deriving DecidableEq, Repr

/-- Embedding of JavaScript `parseInt(s)` with radix unspecified: leading
whitespace, optional sign, `0x` hexadecimal or decimal digits; `none`
models `NaN`. -/
def jsParseInt (s : String) : Option Int :=
  let l := s.data.dropWhile isJsWs
  let neg : Bool := match l with | '-' :: _ => true | _ => false
  let l1 := match l with
    | '-' :: r => r
    | '+' :: r => r
    | _ => l
  let hex : Bool := match l1 with | '0' :: x :: _ => x = 'x' || x = 'X' | _ => false
  if hex then
    let ds := (l1.drop 2).takeWhile isHexDigitChar
    if ds.isEmpty then none
    else some ((if neg then -1 else 1) *
      (ds.foldl (fun a c => a * 16 + (c.toLower.toNat - (if c.isDigit then 48 else 87))) 0 : Nat))
  else
    let ds := l1.takeWhile Char.isDigit
    if ds.isEmpty then none
    else some ((if neg then -1 else 1) * (ds.foldl (fun a c => a * 10 + (c.toNat - 48)) 0 : Nat))

/-- The hard-error message thrown for a failed response. -/
def apiFailMsg (r : HttpResponse) : String :=
  "API request failed: " ++ toString r.status ++ " " ++ r.statusText

/-- Accounting of one execution of the request phase of `enhancePrompt`:
how many outbound requests were made, how long was slept (milliseconds,
`setTimeout` treats `NaN` as 0), and the response handed on or the error
thrown. -/
structure FlowResult where
  requests : Nat
  sleptMs : Option Int
  result : Except String HttpResponse
deriving Repr

/-- The request/retry control flow of `enhancePrompt` (source lines
53–71), with the sequence of provider responses supplied as `resps`:
a non-ok 429 first response with a truthy `Retry-After` header sleeps
`parseInt(header) * 1000` milliseconds and retries exactly once; every
other non-ok response throws immediately. -/
def fetchPhase (resps : Nat → HttpResponse) : FlowResult :=
  if (resps 0).ok then ⟨1, none, Except.ok (resps 0)⟩
  else if (resps 0).status = 429 then
    match (resps 0).retryAfter with
    | some h =>
      if h = "" then ⟨1, none, Except.error (apiFailMsg (resps 0))⟩
      else if (resps 1).ok then
        ⟨2, some (1000 * ((jsParseInt h).getD 0)), Except.ok (resps 1)⟩
      else
        ⟨2, some (1000 * ((jsParseInt h).getD 0)), Except.error (apiFailMsg (resps 1))⟩
    | none => ⟨1, none, Except.error (apiFailMsg (resps 0))⟩
  else ⟨1, none, Except.error (apiFailMsg (resps 0))⟩

example : jsParseInt "2" = some 2 := by decide
example : jsParseInt "  -13x" = some (-13) := by decide
example : jsParseInt "abc" = none := by decide

/-! ### Response-body handling (`enhancePrompt` success path) -/

/-- The message carried by one provider choice. -/
structure ChoiceMessage where
  content : String
deriving DecidableEq, Repr

/-- One element of the provider's `choices` list. -/
structure Choice where
  message : ChoiceMessage
deriving DecidableEq, Repr

/-- The body handling of `enhancePrompt` after a 2xx response: a missing
or empty `choices` list throws `No response from API`; otherwise the
first choice's content is normalized and returned. -/
def handleResponseBody (choices : Option (List Choice)) : Except String String :=
  match choices with
  | none => Except.error "No response from API"
  | some [] => Except.error "No response from API"
  | some (c :: _) => Except.ok (normalizeResponse c.message.content)

/-! ## Claim theorems -/

/-- Claim C7: the requested output-token budget equals three times
`ceil(length / 4)` clamped to `[500, 4000]`: it is always in that range,
is 500 when the tripled estimate is at most 500, is 4000 when the tripled
estimate is at least 4000, and equals the tripled estimate otherwise. -/
theorem C7_max_tokens_clamp (p : String) :
    calculateMaxTokens p = min (max 500 (((p.length + 3) / 4) * 3)) 4000
  ∧ 500 ≤ calculateMaxTokens p
  ∧ calculateMaxTokens p ≤ 4000
  ∧ (((p.length + 3) / 4) * 3 ≤ 500 → calculateMaxTokens p = 500)
  ∧ (4000 ≤ ((p.length + 3) / 4) * 3 → calculateMaxTokens p = 4000)
  ∧ (500 ≤ ((p.length + 3) / 4) * 3 → ((p.length + 3) / 4) * 3 ≤ 4000 →
      calculateMaxTokens p = ((p.length + 3) / 4) * 3) := by
  unfold calculateMaxTokens
  dsimp only
  refine ⟨rfl, ?_, ?_, ?_, ?_, ?_⟩ <;> omega

/-- Witness for C7 at a concrete short prompt (tripled estimate 3, so the
floor of 500 applies). -/
theorem C7_witness : calculateMaxTokens "abc" = 500 :=
  (C7_max_tokens_clamp "abc").2.2.2.1 (by decide)

/-- Claim C10: the output-token budget is monotone nondecreasing in the
prompt length. -/
theorem C10_max_tokens_monotone (p1 p2 : String) (h : p1.length ≤ p2.length) :
    calculateMaxTokens p1 ≤ calculateMaxTokens p2 := by
  unfold calculateMaxTokens
  dsimp only
  have hd : (p1.length + 3) / 4 ≤ (p2.length + 3) / 4 := Nat.div_le_div_right (by omega)
  omega

/-- Witness for C10 at two concrete prompts. -/
theorem C10_witness : calculateMaxTokens "ab" ≤ calculateMaxTokens "abcdefgh" :=
  C10_max_tokens_monotone "ab" "abcdefgh" (by decide)

/-- Claim C9: a missing or empty `choices` list raises the hard error
`No response from API`, and a nonempty list yields the normalized first
choice (no partial or empty result in the error case). -/
theorem C9_empty_choices_error (choices : Option (List Choice)) :
    ((choices = none ∨ choices = some []) →
      handleResponseBody choices = Except.error "No response from API")
  ∧ (∀ c rest, choices = some (c :: rest) →
      handleResponseBody choices = Except.ok (normalizeResponse c.message.content)) := by
  constructor
  · rintro (rfl | rfl) <;> rfl
  · rintro c rest rfl
    rfl

/-- Witness for C9 at the empty choice list. -/
theorem C9_witness : handleResponseBody (some []) = Except.error "No response from API" :=
  (C9_empty_choices_error (some [])).1 (Or.inr rfl)

/-- Claim C8: with a nonempty message list, the retained turns are
exactly the final segment of at most six messages in original order, the
constructed context renders them with role-colon-content joined by blank
lines, appends the labeled free-text context when it is nonempty, and ten
prior turns retain exactly the last six. -/
theorem C8_context_truncation (ctx : String) (msgs : List ChatMessage) (h : msgs ≠ []) :
    (msgs.drop (msgs.length - 6)).length = min 6 msgs.length
  ∧ msgs.take (msgs.length - 6) ++ msgs.drop (msgs.length - 6) = msgs
  ∧ buildFullContext (some ctx) (some msgs) =
      "Recent conversation:\n" ++
        String.intercalate "\n\n" ((msgs.drop (msgs.length - 6)).map renderTurn) ++
        (if ctx = "" then "" else "\n\n" ++ ("Additional context: " ++ ctx))
  ∧ (msgs.length = 10 → msgs.drop (msgs.length - 6) = msgs.drop 4) := by
  refine ⟨?_, List.take_append_drop _ _, ?_, ?_⟩
  · rw [List.length_drop]
    omega
  · unfold buildFullContext
    dsimp only [Option.getD]
    rw [if_pos (List.length_pos.mpr h)]
  · intro h10
    rw [h10]

/-- Ten concrete conversation turns. -/
def msgs10 : List ChatMessage :=
  [⟨"user", "m1"⟩, ⟨"assistant", "m2"⟩, ⟨"user", "m3"⟩, ⟨"assistant", "m4"⟩,
   ⟨"user", "m5"⟩, ⟨"assistant", "m6"⟩, ⟨"user", "m7"⟩, ⟨"assistant", "m8"⟩,
   ⟨"user", "m9"⟩, ⟨"assistant", "m10"⟩]

/-- Witness for C8: with ten turns, exactly the last six remain, in
order. -/
theorem C8_witness :
    msgs10.drop (msgs10.length - 6) = msgs10.drop 4
  ∧ (msgs10.drop (msgs10.length - 6)).length = min 6 msgs10.length := by
  have h := C8_context_truncation "" msgs10 (by decide)
  exact ⟨h.2.2.2 (by decide), h.1⟩

/-- Counterexample to claim C2 as stated: the non-empty model output
consisting of a single thinking segment normalizes to the empty string
(pass 1 empties the text before scrubbing ever runs, and the fallback of
`cleanResponse` then returns that already-empty pre-scrub text). -/
theorem C2_counterexample :
    ("<thinking>x</thinking>" : String) ≠ "" ∧
      normalizeResponse "<thinking>x</thinking>" = "" := by
  exact ⟨by decide, by decide⟩

/-- Claim C2 as amended: whenever the thinking-removal pass leaves a
non-empty text, the full normalization never returns an empty string; and
whenever scrubbing would leave an empty result, the pre-scrub text (the
output of pass 1) is returned instead. -/
theorem C2_scrub_fallback_amended (s : String) :
    (processThinkingModelResponse s ≠ "" → normalizeResponse s ≠ "")
  ∧ (scrubCore (processThinkingModelResponse s).data = [] →
      normalizeResponse s = processThinkingModelResponse s) := by
  constructor
  · intro hne
    unfold normalizeResponse cleanResponse
    cases hE : scrubCore (processThinkingModelResponse s).data with
    | nil => simpa [hE] using hne
    | cons c rest =>
      simp only [hE, List.isEmpty_cons, Bool.false_eq_true, if_false]
      intro hc
      exact List.cons_ne_nil c rest (congrArg String.data hc)
  · intro hE
    unfold normalizeResponse cleanResponse
    simp [hE]

/-- Witness for C2: a plain non-empty output stays non-empty, and an
output that scrubs to nothing falls back to its pass-1 text. -/
theorem C2_witness :
    normalizeResponse "Make it better" ≠ ""
  ∧ normalizeResponse "```" = "```" := by
  have h1 := (C2_scrub_fallback_amended "Make it better").1 (by decide)
  have h2 := (C2_scrub_fallback_amended "```").2 (by decide)
  exact ⟨h1, by rw [h2]; decide⟩

/-- Claim C1: structure detection is total over the five kinds and
applies the tests in strict precedence order (XML, then full-document
JSON, then Markdown, then role-based, then plain), the first matching
test winning; in particular a valid-JSON input that does not match the
XML shape classifies as json even when the Markdown test would also
match. -/
theorem C1_detect_precedence_total (s : String) :
    ((detectPromptStructure s).type = StructureType.xml ↔ xmlTest s = true)
  ∧ ((detectPromptStructure s).type = StructureType.json ↔
      (xmlTest s = false ∧ jsonTest s = true))
  ∧ ((detectPromptStructure s).type = StructureType.markdown ↔
      (xmlTest s = false ∧ jsonTest s = false ∧ markdownTest s = true))
  ∧ ((detectPromptStructure s).type = StructureType.roleBased ↔
      (xmlTest s = false ∧ jsonTest s = false ∧ markdownTest s = false ∧ roleTest s = true))
  ∧ ((detectPromptStructure s).type = StructureType.plain ↔
      (xmlTest s = false ∧ jsonTest s = false ∧ markdownTest s = false ∧ roleTest s = false))
  ∧ ((detectPromptStructure s).preserveFormat = false ↔
      (detectPromptStructure s).type = StructureType.plain)
  ∧ (xmlTest s = false → jsonTest s = true →
      (detectPromptStructure s).type = StructureType.json) := by
  cases hx : xmlTest s <;> cases hj : jsonTest s <;> cases hm : markdownTest s <;>
    cases hr : roleTest s <;>
    simp [detectPromptStructure, hx, hj, hm, hr]

/-- Witness for C1: a valid JSON document containing a Markdown-style
hash marker inside a string value classifies as json. -/
theorem C1_witness :
    (detectPromptStructure "\x7b\"a\": \"# h\"\x7d").type = StructureType.json :=
  (C1_detect_precedence_total "\x7b\"a\": \"# h\"\x7d").2.2.2.2.2.2 (by decide) (by decide)

/-- Claim C3: one enhancement request makes at most two outbound
requests; a non-ok 429 first response with a truthy `Retry-After` header
sleeps `parseInt(header)` seconds (in milliseconds) and retries exactly
once, a failing retry surfacing a hard error and a succeeding retry being
used; a 429 without the header errors immediately with no retry. -/
theorem C3_rate_limit_retry (resps : Nat → HttpResponse) :
    (fetchPhase resps).requests ≤ 2
  ∧ (∀ h : String, (resps 0).ok = false → (resps 0).status = 429 →
      (resps 0).retryAfter = some h → h ≠ "" →
      (fetchPhase resps).requests = 2
      ∧ (∀ n : Int, jsParseInt h = some n → (fetchPhase resps).sleptMs = some (1000 * n))
      ∧ ((resps 1).ok = false →
          (fetchPhase resps).result = Except.error (apiFailMsg (resps 1)))
      ∧ ((resps 1).ok = true → (fetchPhase resps).result = Except.ok (resps 1)))
  ∧ ((resps 0).ok = false → (resps 0).status = 429 → (resps 0).retryAfter = none →
      (fetchPhase resps).requests = 1
      ∧ (fetchPhase resps).result = Except.error (apiFailMsg (resps 0))) := by
  refine ⟨?_, ?_, ?_⟩
  · unfold fetchPhase
    repeat' split
    all_goals simp
  · intro h h0 hst hra hne
    unfold fetchPhase
    rw [h0, hst, hra]
    simp only [Bool.false_eq_true, if_false, if_pos rfl, if_neg hne]
    refine ⟨?_, ?_, ?_, ?_⟩
    · cases h1 : (resps 1).ok <;> simp [h1]
    · intro n hn
      cases h1 : (resps 1).ok <;> simp [h1, hn]
    · intro h1
      simp [h1]
    · intro h1
      simp [h1]
  · intro h0 hst hra
    unfold fetchPhase
    rw [h0, hst, hra]
    simp

/-- A first 429 response carrying `Retry-After: 2`. -/
def resp429A : HttpResponse := ⟨429, "Too Many Requests", some "2", false⟩

/-- A second 429 response without the header. -/
def resp429B : HttpResponse := ⟨429, "Too Many Requests", none, false⟩

/-- The response sequence of the spec's rate-limit scenario. -/
def c3Resps : Nat → HttpResponse := fun i => if i = 0 then resp429A else resp429B

/-- Witness for C3: a 429 with `Retry-After: 2` sleeps 2000 milliseconds,
retries once (two requests total), and the second 429 surfaces a hard
error. -/
theorem C3_witness :
    (fetchPhase c3Resps).requests = 2
  ∧ (fetchPhase c3Resps).sleptMs = some 2000
  ∧ (fetchPhase c3Resps).result = Except.error (apiFailMsg resp429B) := by
  have h := (C3_rate_limit_retry c3Resps).2.1 "2" rfl rfl rfl (by decide)
  refine ⟨h.1, ?_, h.2.2.1 rfl⟩
  exact (h.2.1 2 (by decide)).trans (by decide)

/-- Modelled from the spec's words for claim C5: the text begins —
case-insensitively, anchored at the very start of the text — with one of
the four role markers. -/
def specRoleAnchored (s : String) : Bool :=
  roleMarkers.any fun m => startsWithCI m s.data

/-- Counterexample to claim C5 as stated: the text placing its only role
marker at the start of the second line does not begin with a marker, yet
it is classified role-based (the source regex carries the multiline
flag, anchoring at every line start). -/
theorem C5_counterexample :
    (detectPromptStructure "hello\nUser: hi").type = StructureType.roleBased
  ∧ specRoleAnchored "hello\nUser: hi" = false := by
  exact ⟨by decide, by decide⟩

/-- Every role marker consists of characters that are not line
terminators. -/
theorem roleMarker_no_terminator :
    ∀ m ∈ roleMarkers, ∀ c ∈ m, c ≠ '\n' ∧ c ≠ '\r' := by
  decide

/-- Splitting into lines always returns at least one line. -/
theorem splitLinesChars_ne_nil (l : List Char) : splitLinesChars l ≠ [] := by
  cases l with
  | nil => simp [splitLinesChars]
  | cons c rest =>
    unfold splitLinesChars
    dsimp only
    split
    · simp
    · split <;> simp

/-- A case-insensitive marker free of line terminators that matches at
the start of a text also matches at the start of the text's first
line. -/
theorem startsWithCI_first_line (m : List Char) (hm : ∀ c ∈ m, c ≠ '\n' ∧ c ≠ '\r') :
    ∀ l : List Char, startsWithCI m l = true →
      ∃ h t, splitLinesChars l = h :: t ∧ startsWithCI m h = true := by
  induction m with
  | nil =>
    intro l _
    cases hs : splitLinesChars l with
    | nil => exact absurd hs (splitLinesChars_ne_nil l)
    | cons h t => exact ⟨h, t, rfl, rfl⟩
  | cons p ps ih =>
    intro l hl
    cases l with
    | nil => simp [startsWithCI] at hl
    | cons c cs =>
      rw [startsWithCI] at hl
      have hcp : c.toLower = p := by
        by_cases hc : c.toLower = p
        · exact hc
        · simp [hc] at hl
      rw [if_pos hcp] at hl
      have hpm := hm p (by simp)
      have hcn : c ≠ '\n' := by
        intro hc
        subst hc
        exact hpm.1 (by rw [← hcp]; decide)
      have hcr : c ≠ '\r' := by
        intro hc
        subst hc
        exact hpm.2 (by rw [← hcp]; decide)
      obtain ⟨h, t, hsplit, hstart⟩ := ih (fun d hd => hm d (by simp [hd])) cs hl
      refine ⟨c :: h, t, ?_, ?_⟩
      · unfold splitLinesChars
        dsimp only
        rw [if_neg (by simp [hcn, hcr]), hsplit]
      · rw [startsWithCI, if_pos hcp]
        exact hstart

/-- Claim C5 as amended: a text is classified role-based exactly when the
XML, JSON and Markdown tests all fail and some line of the text — not
necessarily the first — begins case-insensitively with one of the four
role markers (the source regex anchors at every line start); a text that
begins with a marker at its very start still satisfies the role test. -/
theorem C5_role_line_anchored_amended (s : String) :
    ((detectPromptStructure s).type = StructureType.roleBased ↔
      (xmlTest s = false ∧ jsonTest s = false ∧ markdownTest s = false ∧
        ((splitLinesChars s.data).any fun line =>
          roleMarkers.any fun m => startsWithCI m line) = true))
  ∧ (specRoleAnchored s = true → roleTest s = true) := by
  constructor
  · have hrt : ((splitLinesChars s.data).any fun line =>
        roleMarkers.any fun m => startsWithCI m line) = roleTest s := rfl
    rw [hrt]
    cases hx : xmlTest s <;> cases hj : jsonTest s <;> cases hm : markdownTest s <;>
      cases hr : roleTest s <;>
      simp [detectPromptStructure, hx, hj, hm, hr]
  · intro ha
    unfold specRoleAnchored at ha
    rw [List.any_eq_true] at ha
    obtain ⟨m, hmem, hstart⟩ := ha
    obtain ⟨h, t, hsplit, hline⟩ :=
      startsWithCI_first_line m (roleMarker_no_terminator m hmem) s.data hstart
    unfold roleTest
    rw [hsplit]
    simp only [List.any_cons, Bool.or_eq_true, List.any_eq_true]
    exact Or.inl ⟨m, hmem, hline⟩

/-- Witness for C5 (amended): a text beginning with a role marker at its
very start is classified role-based, and the anchored start implies the
role test. -/
theorem C5_witness :
    (detectPromptStructure "You are helpful").type = StructureType.roleBased
  ∧ roleTest "You are helpful" = true := by
  have h := C5_role_line_anchored_amended "You are helpful"
  exact ⟨h.1.mpr (by decide), h.2 (by decide)⟩

/-! Lemmas on newline collapsing, for claim C4. -/

/-- Dropping a prefix never lengthens a list. -/
theorem dropWhile_length_le (p : Char → Bool) (l : List Char) :
    (l.dropWhile p).length ≤ l.length := by
  induction l with
  | nil => simp [List.dropWhile]
  | cons c rest ih =>
    rw [List.dropWhile]
    split
    · rw [List.length_cons]
      exact Nat.le_succ_of_le ih
    · exact Nat.le_refl _

/-- After dropping leading newlines, the head is not a newline. -/
theorem head?_dropWhile_nl (l : List Char) :
    (l.dropWhile fun d => d = '\n').head? ≠ some '\n' := by
  induction l with
  | nil => simp [List.dropWhile]
  | cons c rest ih =>
    rw [List.dropWhile]
    split
    · exact ih
    · rename_i hc
      simp only [List.head?_cons, ne_eq, Option.some.injEq]
      intro h
      subst h
      simp at hc

/-- Newline collapsing keeps the first character. -/
theorem head?_collapseNlAux (f : Nat) (l : List Char) :
    (collapseNlAux f l).head? = l.head? := by
  cases f with
  | zero => rfl
  | succ f =>
    cases l with
    | nil => rfl
    | cons c rest =>
      rw [collapseNlAux]
      dsimp only
      split
      · rename_i hc
        obtain ⟨m, hm⟩ : ∃ m,
            min (1 + (List.takeWhile (fun d => d = '\n') rest).length) 2 = m + 1 :=
          ⟨min (1 + (List.takeWhile (fun d => d = '\n') rest).length) 2 - 1, by omega⟩
        rw [hm, List.replicate_succ, List.cons_append, List.head?_cons, List.head?_cons, hc]
      · rw [List.head?_cons, List.head?_cons]

/-- Prepending a non-newline character preserves the three-newline-free
test. -/
theorem noTriple_cons_ne (c : Char) (hc : c ≠ '\n') (t : List Char) :
    noTripleNl (c :: t) = noTripleNl t := by
  cases t with
  | nil => rfl
  | cons x r =>
    cases r with
    | nil => rfl
    | cons y r2 =>
      rw [noTripleNl]
      simp [hc]

/-- Prepending one newline to a three-newline-free list not starting with
a newline keeps it three-newline-free. -/
theorem noTriple_nl_cons (t : List Char) (ht : noTripleNl t = true)
    (hh : t.head? ≠ some '\n') : noTripleNl ('\n' :: t) = true := by
  cases t with
  | nil => rfl
  | cons x r =>
    cases r with
    | nil => rfl
    | cons y r2 =>
      rw [noTripleNl]
      have hx : x ≠ '\n' := by simpa using hh
      simp [hx, ht]

/-- Prepending two newlines to a three-newline-free list not starting
with a newline keeps it three-newline-free. -/
theorem noTriple_two_nl_cons (t : List Char) (ht : noTripleNl t = true)
    (hh : t.head? ≠ some '\n') : noTripleNl ('\n' :: '\n' :: t) = true := by
  cases t with
  | nil => rfl
  | cons x r =>
    rw [noTripleNl]
    have hx : x ≠ '\n' := by simpa using hh
    simp [hx]
    exact noTriple_nl_cons (x :: r) ht hh

/-- Prepending at most two newlines to a three-newline-free list not
starting with a newline keeps it three-newline-free. -/
theorem noTriple_replicate_nl (m : Nat) (hm : m ≤ 2) (t : List Char)
    (ht : noTripleNl t = true) (hh : t.head? ≠ some '\n') :
    noTripleNl (List.replicate m '\n' ++ t) = true := by
  rcases m with _ | _ | _ | m
  · simpa using ht
  · simpa using noTriple_nl_cons t ht hh
  · simpa [List.replicate_succ] using noTriple_two_nl_cons t ht hh
  · exact absurd hm (by omega)

/-- The output of newline collapsing never contains three consecutive
newlines. -/
theorem collapse_noTriple (f : Nat) : ∀ l : List Char, l.length ≤ f →
    noTripleNl (collapseNlAux f l) = true := by
  induction f with
  | zero =>
    intro l hl
    have hnil : l = [] := by
      cases l with
      | nil => rfl
      | cons c r => simp at hl
    subst hnil
    rfl
  | succ f ih =>
    intro l hl
    cases l with
    | nil => rfl
    | cons c rest =>
      rw [collapseNlAux]
      dsimp only
      split
      · apply noTriple_replicate_nl
        · exact Nat.min_le_right _ _
        · apply ih
          have h1 := dropWhile_length_le (fun d => d = '\n') rest
          simp only [List.length_cons] at hl
          omega
        · rw [head?_collapseNlAux]
          exact head?_dropWhile_nl rest
      · rename_i hc
        rw [noTriple_cons_ne c hc]
        apply ih
        simp only [List.length_cons] at hl
        omega

/-- Counterexample to claim C4 as stated: this input contains a
well-formed thinking segment, yet the normalized output still contains a
marker pair — the single-pass removal splices the surrounding text
`<think` and `ing>B</thinking>` into a new pair. -/
theorem C4_counterexample :
    hasThinking "<think<thinking>A</thinking>ing>B</thinking>".data = true
  ∧ hasThinking
      (processThinkingModelResponse "<think<thinking>A</thinking>ing>B</thinking>").data =
        true := by
  exact ⟨by decide, by decide⟩

/-- Claim C4 as amended: pass 1 removes the thinking segments found in a
single left-to-right pass (leftmost open marker, nearest following close
marker, resuming after the removed segment — so splicing can create a
new marker pair in the output), trims, and collapses newline runs so
that the output never contains three consecutive newlines; a text
containing no marker pair passes through unchanged. -/
theorem C4_thinking_removal_amended (s : String) :
    (hasThinking s.data = false → processThinkingModelResponse s = s)
  ∧ (hasThinking s.data = true →
      noTripleNl (processThinkingModelResponse s).data = true) := by
  constructor
  · intro h
    unfold processThinkingModelResponse
    rw [if_neg (by simp [h])]
  · intro h
    unfold processThinkingModelResponse
    rw [if_pos h]
    dsimp only
    exact collapse_noTriple _ _ (Nat.le_succ _)

/-- Witness for C4 (amended): a text without thinking markers passes
through unchanged, and a removed-and-collapsed output has no triple
newline. -/
theorem C4_witness :
    processThinkingModelResponse "hello" = "hello"
  ∧ noTripleNl
      (processThinkingModelResponse "<thinking>x</thinking>ok\n\n\n\nmore").data = true := by
  exact ⟨(C4_thinking_removal_amended "hello").1 (by decide),
    (C4_thinking_removal_amended "<thinking>x</thinking>ok\n\n\n\nmore").2 (by decide)⟩

/-! Lemmas on tag stripping, for claim C6. -/

/-- When scanning finds no `>`, the list has none. -/
theorem dropThroughGt_none (l : List Char) (h : dropThroughGt l = none) :
    hasGtChar l = false := by
  induction l with
  | nil => rfl
  | cons c rest ih =>
    rw [dropThroughGt] at h
    by_cases hc : c = '>'
    · rw [if_pos hc] at h
      simp at h
    · rw [if_neg hc] at h
      rw [hasGtChar]
      simp [hc, ih h]

/-- Scanning past the first `>` strictly shortens the list. -/
theorem dropThroughGt_some_length (l : List Char) :
    ∀ r, dropThroughGt l = some r → r.length < l.length := by
  induction l with
  | nil => intro r h; simp [dropThroughGt] at h
  | cons c rest ih =>
    intro r h
    rw [dropThroughGt] at h
    by_cases hc : c = '>'
    · rw [if_pos hc] at h
      injection h with h2
      subst h2
      simp
    · rw [if_neg hc] at h
      have h2 := ih r h
      rw [List.length_cons]
      omega

/-- A list without `>` contains no tag-like token. -/
theorem no_gt_no_token (l : List Char) (h : hasGtChar l = false) :
    hasTagToken l = false := by
  induction l with
  | nil => rfl
  | cons c rest ih =>
    rw [hasGtChar] at h
    simp only [Bool.or_eq_false_iff] at h
    rw [hasTagToken]
    simp [h.2, ih h.2]

/-- The output of the bare tag stripper contains no tag-like token. -/
theorem stripTags_no_token (f : Nat) : ∀ l : List Char, l.length ≤ f →
    hasTagToken (stripTagsAux f l) = false := by
  induction f with
  | zero =>
    intro l hl
    have hnil : l = [] := by
      cases l with
      | nil => rfl
      | cons c r => simp at hl
    subst hnil
    rfl
  | succ f ih =>
    intro l hl
    cases l with
    | nil => rfl
    | cons c rest =>
      rw [stripTagsAux]
      split
      · cases hd : dropThroughGt rest with
        | none =>
          dsimp only
          rw [hasTagToken]
          have hng := dropThroughGt_none rest hd
          simp [hng, no_gt_no_token rest hng]
        | some after =>
          dsimp only
          apply ih
          have h2 := dropThroughGt_some_length rest after hd
          simp only [List.length_cons] at hl
          omega
      · rename_i hc
        rw [hasTagToken]
        simp only [List.length_cons] at hl
        simp [hc, ih rest (by omega)]

/-- Any script-segment match starts with a case-insensitive `<script`
occurrence. -/
theorem scriptSegment_contains (l : List Char) (h : hasScriptSegment l = true) :
    containsSubCI scriptOpenPat l = true := by
  induction l with
  | nil => simp [hasScriptSegment] at h
  | cons c rest ih =>
    rw [hasScriptSegment] at h
    rw [containsSubCI]
    rcases (Bool.or_eq_true _ _).mp h with h1 | h2
    · have hs : startsWithCI scriptOpenPat (c :: rest) = true := by
        by_cases hss : startsWithCI scriptOpenPat (c :: rest) = true
        · exact hss
        · exfalso
          unfold tryScriptMatch at h1
          rw [if_neg hss] at h1
          simp at h1
      simp [hs]
    · simp [ih h2]

/-- Counterexample to claim C6 as stated: an XML-shaped input on which
single-pass script removal splices the surrounding text into a new
`<script>...</script>` segment that survives in the sanitizer output. -/
theorem C6_counterexample :
    (detectPromptStructure "<scr<script>a</script>ipt>b</script>").type = StructureType.xml
  ∧ hasScriptSegment (sanitizeInput "<scr<script>a</script>ipt>b</script>").data = true := by
  exact ⟨by decide, by decide⟩

/-- Claim C6 as amended: for input that does not classify as XML-shaped,
the sanitizer output contains no bare tag-like token; for XML-shaped
input the script segments found in a single left-to-right pass are
removed, but splicing may create a new script segment, so the guarantee
holds only when the output is free of `<script` occurrences. -/
theorem C6_sanitize_amended (s : String) :
    ((detectPromptStructure s).type ≠ StructureType.xml →
      hasTagToken (sanitizeInput s).data = false)
  ∧ ((detectPromptStructure s).type = StructureType.xml →
      containsSubCI scriptOpenPat (sanitizeInput s).data = false →
      hasScriptSegment (sanitizeInput s).data = false) := by
  constructor
  · intro h
    unfold sanitizeInput
    rw [if_neg h]
    exact stripTags_no_token _ _ (Nat.le_succ _)
  · intro hxml hnc
    cases hseg : hasScriptSegment (sanitizeInput s).data with
    | false => rfl
    | true =>
      have h2 := scriptSegment_contains _ hseg
      rw [hnc] at h2
      exact Bool.noConfusion h2

/-- Witness for C6 (amended): a plain input loses its tag token, and a
benign XML input has no script segment after sanitizing. -/
theorem C6_witness :
    hasTagToken (sanitizeInput "a <b> c").data = false
  ∧ hasScriptSegment (sanitizeInput "<a>hi</a>").data = false := by
  exact ⟨(C6_sanitize_amended "a <b> c").1 (by decide),
    (C6_sanitize_amended "<a>hi</a>").2 (by decide) (by decide)⟩

end PerfectPrompt
